import Mathlib

/-
  Verification of the concurrent music-downloader program (main.go).

  The Go source is shallowly embedded: Go strings are lists of characters,
  pure functions become Lean functions, the filesystem and the external
  subprocess are oracles supplied to the embedded `downloadTrack`, and the
  concurrent worker pool is a small-step transition relation over a run state
  whose steps are "a worker dequeues a job" and "a worker records a finished
  job under the mutex".
-/

namespace MusicDL

/-- Character list of a string literal (Go strings are modelled as `List Char`). -/
def strT (s : String) : List Char := s.data

/-- The character class trimmed by Go's strings.TrimSpace (ASCII part:
space, tab, newline, vertical tab, form feed, carriage return). -/
def goIsSpace (c : Char) : Bool :=
  c = ' ' || c = '\t' || c = '\n' || c = Char.ofNat 11 || c = Char.ofNat 12 || c = '\r'

/-- Go strings.TrimSpace: drop whitespace from both ends. -/
def goTrimSpace (s : List Char) : List Char :=
  ((s.dropWhile goIsSpace).reverse.dropWhile goIsSpace).reverse

/-- Go strings.ToLower, restricted to ASCII case mapping (all keyword
constants in the program are ASCII). -/
def toLowerList (s : List Char) : List Char := s.map Char.toLower

/-- Go strings.Contains: `sub` occurs as a contiguous substring of `s`. -/
def containsList (s sub : List Char) : Bool :=
  if sub.isPrefixOf s then true
  else
    match s with
    | [] => false
    | _ :: rest => containsList rest sub

/-- The fixed separator " - " used by readPlaylist (main.go line 404). -/
def sepList : List Char := strT " - "

/-- Go strings.Split(line, " - "): split around each non-overlapping
occurrence of the three-character separator, scanning left to right.
`acc` holds the current (reversed) piece. -/
def splitOnSepAux : List Char → List Char → List (List Char)
  | ' ' :: '-' :: ' ' :: rest, acc => acc.reverse :: splitOnSepAux rest []
  | c :: rest, acc => splitOnSepAux rest (c :: acc)
  | [], acc => [acc.reverse]

/-- Go strings.Split(line, " - "). -/
def goSplitSep (s : List Char) : List (List Char) := splitOnSepAux s []

/-- Go strings.Join(parts, " - "). -/
def goJoinSep (parts : List (List Char)) : List Char := List.intercalate sepList parts

/-- Track (main.go lines 27-31). -/
structure Track where
  Artist : List Char
  Title : List Char
  Raw : List Char
deriving DecidableEq

/-- FailureReason (main.go lines 34-40).  The Go zero value of this
enumeration is NetworkError. -/
inductive FailureReason
  | NetworkError
  | NotFound
  | UnknownError
deriving DecidableEq

/-- DownloadResult (main.go lines 177-182).  Fields left unset by a Go
composite literal take their zero values (false, NetworkError, ""). -/
structure DownloadResult where
  Success : Bool
  Skipped : Bool
  Reason : FailureReason
  Message : List Char
deriving DecidableEq

/-- networkKeywords (main.go lines 329-333). -/
def networkKeywords : List (List Char) :=
  [strT "connection", strT "proxy", strT "timeout", strT "network", strT "dns",
   strT "ssl", strT "tls", strT "certificate", strT "host", strT "refused",
   strT "unreachable", strT "blocked", strT "403", strT "503", strT "502",
   strT "500", strT "unable to download", strT "httperror", strT "urlerror",
   strT "no such host"]

/-- notFoundKeywords (main.go lines 342-346). -/
def notFoundKeywords : List (List Char) :=
  [strT "no video", strT "not found", strT "no matches", strT "no results",
   strT "unable to find", strT "no suitable", strT "this video is not available",
   strT "video unavailable", strT "private video", strT "deleted video",
   strT "age-restricted"]

/-- analyzeFailure (main.go lines 325-360).  `cmdErr` models the `error`
argument (None = nil); the Go body never reads it.  The keyword loops with
early return are rendered with `List.any`, which returns the same reason and
message as the first matching iteration. -/
def analyzeFailure (errorOutput : List Char) (cmdErr : Option (List Char)) :
    FailureReason × List Char :=
  let errorLower := toLowerList errorOutput
  if networkKeywords.any (fun kw => containsList errorLower kw) then
    (FailureReason.NetworkError, strT "Network error: " ++ goTrimSpace errorOutput)
  else if notFoundKeywords.any (fun kw => containsList errorLower kw) then
    (FailureReason.NotFound, strT "Track not found: " ++ goTrimSpace errorOutput)
  else if errorOutput ≠ [] then
    (FailureReason.UnknownError, strT "Unknown error: " ++ goTrimSpace errorOutput)
  else
    (FailureReason.UnknownError, strT "Unknown error occurred")

/-- The invalid filename characters of sanitizeFilename (main.go line 365);
each entry of the Go slice is a single-character string. -/
def invalidChars : List Char :=
  ['/', '\\', ':', '*', '?', '\"', '<', '>', '|', '\n', '\r', '\t']

/-- Go strings.ReplaceAll for a single-character pattern. -/
def replaceAllChar (s : List Char) (a r : Char) : List Char :=
  s.map (fun c => if c = a then r else c)

/-- sanitizeFilename (main.go lines 363-381): replace each invalid character
by an underscore, trim whitespace, and cut to 100 runes (list elements are
runes, so `List.length` is Go's utf8.RuneCountInString). -/
def sanitizeFilename (name : List Char) : List Char :=
  let replaced := invalidChars.foldl (fun acc ch => replaceAllChar acc ch '_') name
  let trimmed := goTrimSpace replaced
  if 100 < trimmed.length then trimmed.take 100 else trimmed

/-- The track built from one accepted playlist line (main.go lines 404-417):
the first " - " splits artist from title, later separators are rejoined into
the title, and the trimmed line is kept as the raw identity. -/
def mkTrack (line : List Char) : Track :=
  let parts := goSplitSep line
  { Artist := goTrimSpace (parts.headD [])
    Title := goTrimSpace (goJoinSep parts.tail)
    Raw := line }

/-- The scanning loop of readPlaylist (main.go lines 395-418) over the
file's lines, with `seen` the set of raw lines already encountered.  A line
is trimmed, dropped when blank or already seen, marked seen, dropped when it
splits into fewer than two parts, and otherwise emits a track. -/
def readPlaylistAux : List (List Char) → List (List Char) → List Track
  | [], _ => []
  | l :: rest, seen =>
    let line := goTrimSpace l
    if line = [] ∨ line ∈ seen then readPlaylistAux rest seen
    else if (goSplitSep line).length < 2 then readPlaylistAux rest (line :: seen)
    else mkTrack line :: readPlaylistAux rest (line :: seen)

/-- readPlaylist (main.go lines 384-421), applied to the list of lines the
scanner yields. -/
def readPlaylistLines (ls : List (List Char)) : List Track := readPlaylistAux ls []

/-- A trimmed line that survives readPlaylist's two filters: non-blank and
containing at least one " - " separator. -/
def goodLine (l : List Char) : Bool :=
  !(l.isEmpty || decide ((goSplitSep l).length < 2))

/-- Modelled from the spec: "the parsed track set ... preserves first-seen
order" — keep the first occurrence of every line, in order.  Used only as
the specification-side comparison for the parser's deduplication. -/
def specFirstSeen : List (List Char) → List (List Char) → List (List Char)
  | [], _ => []
  | x :: xs, seen =>
    if x ∈ seen then specFirstSeen xs seen else x :: specFirstSeen xs (x :: seen)

/-- PROXY_URL (main.go line 23). -/
def PROXY_URL : List Char := strT "http://localhost:8881"

/-- The configuration fields of Downloader (main.go lines 43-55); the
mutable counters and channels live in `RunState` below. -/
structure Downloader where
  workers : Nat
  retryCount : Nat
  skipExists : Bool
  proxy : List Char

/-- NewDownloader (main.go lines 58-66). -/
def NewDownloader (workers : Nat) : Downloader :=
  { workers := workers, retryCount := 2, skipExists := true, proxy := PROXY_URL }

/-- The recognized audio extensions (main.go lines 191 and 302). -/
def extensions : List (List Char) :=
  [strT ".mp3", strT ".webm", strT ".m4a", strT ".ogg", strT ".opus"]

/-- The transient suffix appended to the output template (main.go line 201). -/
def tmpSuffix : List Char := strT ".tmp"

/-- filepath.Join(outputDir, name) for a flat directory and a relative name. -/
def joinPath (dir name : List Char) : List Char := dir ++ '/' :: name

/-- The sanitized base filename of a track (main.go line 186). -/
def safeBase (t : Track) : List Char :=
  sanitizeFilename (t.Artist ++ strT " - " ++ t.Title)

/-- The environment one downloadTrack attempt runs against: which files
os.Stat finds before the subprocess, the pipe/start errors, which files
exist after cmd.Wait, whether os.Rename fails, and the captured stderr text
and exit error of the subprocess. -/
structure AttemptEnv where
  fs : List Char → Bool
  stdoutPipeErr : Option (List Char)
  stderrPipeErr : Option (List Char)
  startErr : Option (List Char)
  fsAfter : List Char → Bool
  renameErr : List Char → List Char → Option (List Char)
  stderrOutput : List Char
  cmdErr : Option (List Char)

/-- What one downloadTrack attempt produced: its DownloadResult, whether
the external subprocess was invoked at all, and the directory contents it
leaves behind. -/
structure AttemptResult where
  result : DownloadResult
  invoked : Bool
  fsFinal : List Char → Bool

/-- Point update of a filesystem oracle (a rename is one removal and one
insertion; os.Remove is one removal). -/
def fsSet (fs : List Char → Bool) (p : List Char) (b : Bool) : List Char → Bool :=
  fun q => if q = p then b else fs q

/-- downloadTrack (main.go lines 185-322).  The skip-check loop over
extensions returns the same result for every hit, so it is `List.any`; the
post-wait temp scan renames the first extension whose temp file exists
(`List.find?`). -/
def downloadTrack (d : Downloader) (env : AttemptEnv) (t : Track)
    (outputDir : List Char) : AttemptResult :=
  let safeName := safeBase t
  if d.skipExists &&
      extensions.any (fun ext => env.fs (joinPath outputDir (safeName ++ ext))) then
    { result := { Success := true, Skipped := true, Reason := FailureReason.NetworkError,
                  Message := strT "File already exists" }
      invoked := false, fsFinal := env.fs }
  else
    match env.stdoutPipeErr with
    | some e =>
      { result := { Success := false, Skipped := false, Reason := FailureReason.UnknownError,
                    Message := strT "Failed to create stdout pipe: " ++ e }
        invoked := false, fsFinal := env.fs }
    | none =>
      match env.stderrPipeErr with
      | some e =>
        { result := { Success := false, Skipped := false, Reason := FailureReason.UnknownError,
                      Message := strT "Failed to create stderr pipe: " ++ e }
          invoked := false, fsFinal := env.fs }
      | none =>
        match env.startErr with
        | some e =>
          { result := { Success := false, Skipped := false, Reason := FailureReason.UnknownError,
                        Message := strT "Failed to start command: " ++ e }
            invoked := false, fsFinal := env.fs }
        | none =>
          match extensions.find?
              (fun ext => env.fsAfter (joinPath outputDir (safeName ++ ext ++ tmpSuffix))) with
          | some ext =>
            let tempPath := joinPath outputDir (safeName ++ ext ++ tmpSuffix)
            let finalPath := joinPath outputDir (safeName ++ ext)
            match env.renameErr tempPath finalPath with
            | some e =>
              { result := { Success := false, Skipped := false,
                            Reason := FailureReason.UnknownError,
                            Message := strT "Failed to rename temp file: " ++ e }
                invoked := true, fsFinal := fsSet env.fsAfter tempPath false }
            | none =>
              { result := { Success := true, Skipped := false,
                            Reason := FailureReason.NetworkError,
                            Message := strT "Downloaded successfully" }
                invoked := true
                fsFinal := fsSet (fsSet env.fsAfter tempPath false) finalPath true }
          | none =>
            let rm := analyzeFailure env.stderrOutput env.cmdErr
            { result := { Success := false, Skipped := false, Reason := rm.1, Message := rm.2 }
              invoked := true, fsFinal := env.fsAfter }

/-- One retry run's observables: the DownloadResult handed back, how many
attempts were made, and the seconds slept between attempts, in order. -/
structure RetryTrace where
  result : DownloadResult
  attempts : Nat
  sleeps : List Nat
deriving DecidableEq

/-- The retry loop of worker (main.go lines 115-126), with `f attempt` the
outcome downloadTrack produces on that attempt and `k` the retries still
permitted after the current attempt (initially retryCount).  On a failure
with retries remaining the worker sleeps attempt+1 seconds and iterates; the
last attempt's result stands no matter its outcome. -/
def retryAux (f : Nat → DownloadResult) (attempt : Nat) : Nat → RetryTrace
  | 0 => { result := f attempt, attempts := 1, sleeps := [] }
  | k + 1 =>
    let r := f attempt
    if r.Success then { result := r, attempts := 1, sleeps := [] }
    else
      let tr := retryAux f (attempt + 1) k
      { result := tr.result, attempts := tr.attempts + 1, sleeps := (attempt + 1) :: tr.sleeps }

/-- The whole per-track retry loop, starting at attempt 0 with retryCount
retries remaining. -/
def runRetries (retryCount : Nat) (f : Nat → DownloadResult) : RetryTrace :=
  retryAux f 0 retryCount

/-- The terminal outcome a worker records for one track under the mutex
(main.go lines 129-152): exactly one of the three counters is bumped. -/
inductive Outcome
  | downloadedOk
  | skippedOk
  | failedOut
deriving DecidableEq

/-- The shared state of one Download run: the job queue (`pending`), the
jobs dequeued but not yet recorded (`inFlight`), the three counters, the
number of jobs dequeued so far, the lines written to the failure file, and
a history of recorded jobs (`done`, a ghost field justifying the counters). -/
structure RunState where
  pending : List Track
  inFlight : List Track
  downloaded : Nat
  skipped : Nat
  failed : Nat
  dequeued : Nat
  failLog : List (List Char)
  done : List (Track × Outcome)
deriving DecidableEq

/-- The mutex-protected block of worker (main.go lines 129-152): bump the
counter matching the outcome and, on failure, hand the track's raw line to
the failure stream writer (which appends and flushes it, main.go 170-173). -/
def recordOutcome (s : RunState) (t : Track) (o : Outcome) : RunState :=
  match o with
  | Outcome.downloadedOk =>
    { s with downloaded := s.downloaded + 1, done := s.done ++ [(t, o)] }
  | Outcome.skippedOk =>
    { s with skipped := s.skipped + 1, done := s.done ++ [(t, o)] }
  | Outcome.failedOut =>
    { s with failed := s.failed + 1, failLog := s.failLog ++ [t.Raw],
             done := s.done ++ [(t, o)] }

/-- The state at the start of Download (main.go lines 74-96): every parsed
track queued as a job, all counters zero. -/
def initState (ts : List Track) : RunState :=
  { pending := ts, inFlight := [], downloaded := 0, skipped := 0, failed := 0,
    dequeued := 0, failLog := [], done := [] }

/-- One scheduling step of the worker pool with `W` workers: a free worker
dequeues the next job, or a worker finishes its job with some outcome and
records it under the mutex.  The outcome is unconstrained, covering every
behaviour of the retried downloadTrack. -/
inductive Step (W : Nat) : RunState → RunState → Prop
  | dequeue (s : RunState) (t : Track) (p : List Track) :
      s.pending = t :: p → s.inFlight.length < W →
      Step W s { s with pending := p, inFlight := s.inFlight ++ [t],
                        dequeued := s.dequeued + 1 }
  | finish (s : RunState) (l1 l2 : List Track) (t : Track) (o : Outcome) :
      s.inFlight = l1 ++ t :: l2 →
      Step W s (recordOutcome { s with inFlight := l1 ++ l2 } t o)

/-- Reachability in zero or more scheduling steps. -/
inductive Reach (W : Nat) : RunState → RunState → Prop
  | refl (s : RunState) : Reach W s s
  | tail (s t u : RunState) : Reach W s t → Step W t u → Reach W s u

/-- How many recorded jobs carry outcome `o`. -/
def outcomeCount (o : Outcome) (dn : List (Track × Outcome)) : Nat :=
  (dn.filter (fun p => decide (p.2 = o))).length

/-- Whether a recorded job failed. -/
def isFailedPair : Track × Outcome → Bool
  | (_, Outcome.failedOut) => true
  | _ => false

/-- The run invariant: counters agree with the ghost history, dequeue
accounting balances, the multiset of tracks is conserved, and the failure
log is exactly the raw lines of the recorded failures, in order. -/
def RunInv (ts : List Track) (s : RunState) : Prop :=
  s.downloaded = outcomeCount Outcome.downloadedOk s.done ∧
  s.skipped = outcomeCount Outcome.skippedOk s.done ∧
  s.failed = outcomeCount Outcome.failedOut s.done ∧
  s.dequeued = s.inFlight.length + s.done.length ∧
  s.pending.length + s.dequeued = ts.length ∧
  (s.pending ++ s.inFlight ++ s.done.map Prod.fst).Perm ts ∧
  s.failLog = (s.done.filter isFailedPair).map (fun p => p.1.Raw)

/-- One operation of the failure stream writer on its open file. -/
inductive FileOp
  | write (line : List Char)
  | flush
deriving DecidableEq

/-- streamSaveFailedTracks' receive loop (main.go lines 170-173): for every
track received, one buffered write of the raw line followed immediately by
one flush. -/
def streamSaveOps : List Track → List FileOp
  | [] => []
  | t :: rest => FileOp.write t.Raw :: FileOp.flush :: streamSaveOps rest

/-- The durable file contents after executing a sequence of file operations
on a buffered writer: writes fill the buffer, flush moves the buffer to
stable storage, and anything still buffered is lost on a kill. -/
def runOps : List FileOp → List (List Char) → List (List Char) → List (List Char)
  | [], _, stable => stable
  | FileOp.write l :: rest, buf, stable => runOps rest (buf ++ [l]) stable
  | FileOp.flush :: rest, buf, stable => runOps rest [] (stable ++ buf)

/-- A download attempt result that always fails (used as a retry oracle). -/
def failRes : DownloadResult :=
  { Success := false, Skipped := false, Reason := FailureReason.NetworkError, Message := [] }

/-- A track of the running example: artist "A", title "B". -/
def t0 : Track := { Artist := strT "A", Title := strT "B", Raw := strT "A - B" }

/-- An environment in which "music/A - B.mp3" already exists. -/
def envSkip : AttemptEnv :=
  { fs := fun p => p == strT "music/A - B.mp3"
    stdoutPipeErr := none, stderrPipeErr := none, startErr := none
    fsAfter := fun _ => false, renameErr := fun _ _ => none
    stderrOutput := [], cmdErr := none }

/-- An environment in which the subprocess left temp files for two
extensions of the same base name. -/
def envTwoTmp : AttemptEnv :=
  { fs := fun _ => false
    stdoutPipeErr := none, stderrPipeErr := none, startErr := none
    fsAfter := fun p => p == strT "music/A - B.mp3.tmp" || p == strT "music/A - B.webm.tmp"
    renameErr := fun _ _ => none
    stderrOutput := [], cmdErr := none }

/-- The playlist of the running example: the single line "A - B". -/
def lines1 : List (List Char) := [strT "A - B"]

/-- The run state after a worker dequeued the only job but has not yet
recorded its outcome. -/
def runMid : RunState :=
  { pending := [], inFlight := [t0], downloaded := 0, skipped := 0, failed := 0,
    dequeued := 1, failLog := [], done := [] }

/-- The terminal run state in which the only track downloaded. -/
def runFin : RunState :=
  { pending := [], inFlight := [], downloaded := 1, skipped := 0, failed := 0,
    dequeued := 1, failLog := [], done := [(t0, Outcome.downloadedOk)] }

/-- The terminal run state in which the only track failed. -/
def runFinFail : RunState :=
  { pending := [], inFlight := [], downloaded := 0, skipped := 0, failed := 1,
    dequeued := 1, failLog := [strT "A - B"], done := [(t0, Outcome.failedOut)] }

/-! Helper lemmas about sanitizeFilename. -/

lemma not_mem_replaceAllChar_self {a r : Char} (h : a ≠ r) (s : List Char) :
    a ∉ replaceAllChar s a r := by
  intro hmem
  rw [replaceAllChar, List.mem_map] at hmem
  obtain ⟨x, _, hxe⟩ := hmem
  by_cases hxa : x = a
  · rw [if_pos hxa] at hxe
    exact h hxe.symm
  · rw [if_neg hxa] at hxe
    exact hxa hxe

lemma not_mem_replaceAllChar {c r : Char} {s : List Char} (hs : c ∉ s) (hr : c ≠ r)
    (a : Char) : c ∉ replaceAllChar s a r := by
  intro hmem
  rw [replaceAllChar, List.mem_map] at hmem
  obtain ⟨x, hx, hxe⟩ := hmem
  by_cases hxa : x = a
  · rw [if_pos hxa] at hxe
    exact hr hxe.symm
  · rw [if_neg hxa] at hxe
    exact hs (hxe ▸ hx)

lemma not_mem_foldl_replace_of_not_mem :
    ∀ (cs init : List Char) (c : Char), c ∉ init → c ≠ '_' →
      c ∉ cs.foldl (fun acc ch => replaceAllChar acc ch '_') init := by
  intro cs
  induction cs with
  | nil => intro init c hi _ hmem; exact hi hmem
  | cons ch rest ih =>
    intro init c hi hr
    exact ih (replaceAllChar init ch '_') c (not_mem_replaceAllChar hi hr ch) hr

lemma not_mem_foldl_replace_of_mem :
    ∀ (cs init : List Char) (c : Char), c ∈ cs → c ≠ '_' →
      c ∉ cs.foldl (fun acc ch => replaceAllChar acc ch '_') init := by
  intro cs
  induction cs with
  | nil => intro init c hc _; exact absurd hc (List.not_mem_nil c)
  | cons ch rest ih =>
    intro init c hc hr
    rcases List.mem_cons.mp hc with hch | hrest
    · subst hch
      exact not_mem_foldl_replace_of_not_mem rest _ c
        (not_mem_replaceAllChar_self hr init) hr
    · exact ih _ c hrest hr

lemma mem_of_mem_goTrimSpace {c : Char} {s : List Char} (h : c ∈ goTrimSpace s) : c ∈ s := by
  rw [goTrimSpace, List.mem_reverse] at h
  have h2 := (List.dropWhile_sublist goIsSpace).mem h
  rw [List.mem_reverse] at h2
  exact (List.dropWhile_sublist goIsSpace).mem h2

/-- C8: for every input, sanitizeFilename returns a string containing none of
the forbidden characters (slash, backslash, colon, star, question mark,
double quote, angle brackets, pipe, newline, carriage return, tab — each
replaced by an underscore) and of length at most 100 code points. -/
theorem c8_sanitize_safe (name : List Char) :
    (∀ c, c ∈ invalidChars → c ∉ sanitizeFilename name) ∧
      (sanitizeFilename name).length ≤ 100 := by
  constructor
  · intro c hc hmem
    have hr : c ≠ '_' := by
      intro he
      subst he
      exact absurd hc (by decide)
    have h1 : c ∉ invalidChars.foldl (fun acc ch => replaceAllChar acc ch '_') name :=
      not_mem_foldl_replace_of_mem invalidChars name c hc hr
    rw [sanitizeFilename] at hmem
    split at hmem
    · exact h1 (mem_of_mem_goTrimSpace ((List.take_sublist _ _).mem hmem))
    · exact h1 (mem_of_mem_goTrimSpace hmem)
  · rw [sanitizeFilename]
    split
    · rw [List.length_take]
      exact Nat.min_le_left _ _
    · omega

/-- C8 witness: a concrete sanitization is forbidden-character-free and short. -/
theorem c8_sanitize_safe_witness :
    '/' ∉ sanitizeFilename (strT "AC/DC: Back?") ∧
      (sanitizeFilename (strT "AC/DC: Back?")).length ≤ 100 :=
  ⟨(c8_sanitize_safe (strT "AC/DC: Back?")).1 '/' (by decide),
   (c8_sanitize_safe (strT "AC/DC: Back?")).2⟩

/-! Helper lemmas about the playlist parser. -/

lemma containsList_of_isPrefixOf {s sub : List Char} (h : sub.isPrefixOf s = true) :
    containsList s sub = true := by
  unfold containsList
  rw [if_pos h]

lemma containsList_cons {s sub : List Char} (c : Char) (h : containsList s sub = true) :
    containsList (c :: s) sub = true := by
  by_cases hp : sub.isPrefixOf (c :: s) = true
  · unfold containsList
    rw [if_pos hp]
  · unfold containsList
    rw [if_neg hp]
    exact h

lemma sep_isPrefixOf (rest : List Char) :
    sepList.isPrefixOf (' ' :: '-' :: ' ' :: rest) = true := by
  show List.isPrefixOf [' ', '-', ' '] (' ' :: '-' :: ' ' :: rest) = true
  simp [List.isPrefixOf]

lemma contains_of_splitOnSepAux :
    ∀ (s acc : List Char), 2 ≤ (splitOnSepAux s acc).length → containsList s sepList = true := by
  intro s
  induction s with
  | nil =>
    intro acc h
    simp [splitOnSepAux] at h
  | cons c rest ih =>
    intro acc h
    rw [splitOnSepAux.eq_def] at h
    split at h
    · rename_i rest2 heq
      rw [heq]
      exact containsList_of_isPrefixOf (sep_isPrefixOf _)
    · rename_i cc c2 hnomatch heq
      injection heq with he1 he2
      subst he1
      subst he2
      exact containsList_cons _ (ih _ h)
    · simp at h

lemma raw_mkTrack (line : List Char) : (mkTrack line).Raw = line := rfl

lemma mem_readPlaylistAux :
    ∀ (ls seen : List (List Char)) (t : Track), t ∈ readPlaylistAux ls seen →
      (∃ l, l ∈ ls ∧ t.Raw = goTrimSpace l) ∧ 2 ≤ (goSplitSep t.Raw).length := by
  intro ls
  induction ls with
  | nil =>
    intro seen t ht
    simp [readPlaylistAux] at ht
  | cons l rest ih =>
    intro seen t ht
    rw [readPlaylistAux] at ht
    split at ht
    · obtain ⟨⟨l2, hl2, he⟩, hlen⟩ := ih _ t ht
      exact ⟨⟨l2, List.mem_cons_of_mem l hl2, he⟩, hlen⟩
    · split at ht
      · obtain ⟨⟨l2, hl2, he⟩, hlen⟩ := ih _ t ht
        exact ⟨⟨l2, List.mem_cons_of_mem l hl2, he⟩, hlen⟩
      · rcases List.mem_cons.mp ht with hhd | htl
        · subst hhd
          rw [raw_mkTrack]
          exact ⟨⟨l, List.mem_cons_self l rest, rfl⟩, by omega⟩
        · obtain ⟨⟨l2, hl2, he⟩, hlen⟩ := ih _ t htl
          exact ⟨⟨l2, List.mem_cons_of_mem l hl2, he⟩, hlen⟩

lemma specFirstSeen_not_mem :
    ∀ (ls seen : List (List Char)) (x : List Char), x ∈ specFirstSeen ls seen → x ∉ seen := by
  intro ls
  induction ls with
  | nil =>
    intro seen x hx
    simp [specFirstSeen] at hx
  | cons y ys ih =>
    intro seen x hx
    rw [specFirstSeen] at hx
    split at hx
    · exact ih _ x hx
    · rcases List.mem_cons.mp hx with hxy | hxs
      · subst hxy
        rename_i hy
        exact hy
      · intro hxseen
        exact ih _ x hxs (List.mem_cons_of_mem y hxseen)

lemma specFirstSeen_nodup : ∀ (ls seen : List (List Char)), (specFirstSeen ls seen).Nodup := by
  intro ls
  induction ls with
  | nil =>
    intro seen
    simp [specFirstSeen]
  | cons y ys ih =>
    intro seen
    rw [specFirstSeen]
    split
    · exact ih seen
    · refine List.nodup_cons.mpr ⟨?_, ih (y :: seen)⟩
      intro hy
      exact specFirstSeen_not_mem ys (y :: seen) y hy (List.mem_cons_self y seen)

lemma goodLine_false_of_blank {l : List Char} (h : l = []) : goodLine l = false := by
  subst h
  rfl

lemma goodLine_false_of_short {l : List Char} (h : (goSplitSep l).length < 2) :
    goodLine l = false := by
  simp [goodLine, h]

lemma goodLine_true {l : List Char} (h1 : l ≠ []) (h2 : ¬(goSplitSep l).length < 2) :
    goodLine l = true := by
  simp [goodLine, h1, h2]

lemma readPlaylistAux_map_raw :
    ∀ (ls s1 s2 : List (List Char)),
      (∀ l, goodLine l = true → (l ∈ s1 ↔ l ∈ s2)) →
      (readPlaylistAux ls s1).map Track.Raw =
        specFirstSeen ((ls.map goTrimSpace).filter goodLine) s2 := by
  intro ls
  induction ls with
  | nil =>
    intro s1 s2 _
    simp [readPlaylistAux, specFirstSeen]
  | cons l rest ih =>
    intro s1 s2 hcond
    rw [readPlaylistAux, List.map_cons, List.filter_cons]
    by_cases hblank : goTrimSpace l = []
    · rw [if_pos (Or.inl hblank), if_neg (by rw [goodLine_false_of_blank hblank]; simp)]
      exact ih s1 s2 hcond
    · by_cases hseen : goTrimSpace l ∈ s1
      · rw [if_pos (Or.inr hseen)]
        by_cases hlen : (goSplitSep (goTrimSpace l)).length < 2
        · rw [if_neg (by rw [goodLine_false_of_short hlen]; simp)]
          exact ih s1 s2 hcond
        · have hg := goodLine_true hblank hlen
          rw [if_pos (by rw [hg])]
          rw [specFirstSeen]
          rw [if_pos ((hcond _ hg).mp hseen)]
          exact ih s1 s2 hcond
      · rw [if_neg (by push_neg; exact ⟨hblank, hseen⟩)]
        by_cases hlen : (goSplitSep (goTrimSpace l)).length < 2
        · rw [if_pos hlen, if_neg (by rw [goodLine_false_of_short hlen]; simp)]
          apply ih
          intro l2 hl2
          have hne : l2 ≠ goTrimSpace l := by
            intro he
            subst he
            rw [goodLine_false_of_short hlen] at hl2
            exact Bool.false_ne_true hl2
          rw [List.mem_cons]
          constructor
          · intro hm
            rcases hm with hm | hm
            · exact absurd hm hne
            · exact (hcond l2 hl2).mp hm
          · intro hm
            exact Or.inr ((hcond l2 hl2).mpr hm)
        · have hg := goodLine_true hblank hlen
          rw [if_neg hlen, if_pos (by rw [hg])]
          rw [List.map_cons, raw_mkTrack, specFirstSeen]
          rw [if_neg (fun hm => hseen ((hcond _ hg).mpr hm))]
          congr 1
          apply ih
          intro l2 hl2
          rw [List.mem_cons, List.mem_cons, hcond l2 hl2]

lemma readPlaylistAux_trim_dup :
    ∀ (l1 l2 : List Char) (ls seen : List (List Char)), goTrimSpace l1 = goTrimSpace l2 →
      readPlaylistAux (l1 :: l2 :: ls) seen = readPlaylistAux (l1 :: ls) seen := by
  intro l1 l2 ls seen heq
  rw [readPlaylistAux]
  conv_rhs => rw [readPlaylistAux]
  by_cases hskip : goTrimSpace l1 = [] ∨ goTrimSpace l1 ∈ seen
  · rw [if_pos hskip, if_pos hskip]
    rw [readPlaylistAux]
    rw [← heq]
    rw [if_pos hskip]
  · rw [if_neg hskip, if_neg hskip]
    by_cases hlen : (goSplitSep (goTrimSpace l1)).length < 2
    · rw [if_pos hlen, if_pos hlen]
      rw [readPlaylistAux, ← heq]
      rw [if_pos (Or.inr (List.mem_cons_self _ _))]
    · rw [if_neg hlen, if_neg hlen]
      rw [readPlaylistAux, ← heq]
      rw [if_pos (Or.inr (List.mem_cons_self _ _))]

/-- C9: analyzeFailure never consults the process exit error — for every
captured error text and any two exit errors (nil included), the classifier
returns the same reason and message. -/
theorem c9_classifier_ignores_exit (out : List Char) (e1 e2 : Option (List Char)) :
    analyzeFailure out e1 = analyzeFailure out e2 := rfl

/-- C3: the failure classifier is ordered and first-match-wins over the
lowercased error text: any network keyword yields NetworkError (even if a
not-found keyword is also present); otherwise any not-found keyword yields
NotFound; otherwise non-empty text yields UnknownError carrying the text;
empty text yields UnknownError with the generic message. -/
theorem c3_classifier_order (out : List Char) (e : Option (List Char)) :
    ((∃ kw, kw ∈ networkKeywords ∧ containsList (toLowerList out) kw = true) →
      analyzeFailure out e =
        (FailureReason.NetworkError, strT "Network error: " ++ goTrimSpace out)) ∧
    ((∀ kw, kw ∈ networkKeywords → containsList (toLowerList out) kw = false) →
     (∃ kw, kw ∈ notFoundKeywords ∧ containsList (toLowerList out) kw = true) →
      analyzeFailure out e =
        (FailureReason.NotFound, strT "Track not found: " ++ goTrimSpace out)) ∧
    ((∀ kw, kw ∈ networkKeywords → containsList (toLowerList out) kw = false) →
     (∀ kw, kw ∈ notFoundKeywords → containsList (toLowerList out) kw = false) →
     out ≠ [] →
      analyzeFailure out e =
        (FailureReason.UnknownError, strT "Unknown error: " ++ goTrimSpace out)) ∧
    (out = [] →
      analyzeFailure out e = (FailureReason.UnknownError, strT "Unknown error occurred")) := by
  refine ⟨?_, ?_, ?_, ?_⟩
  · intro ⟨kw, hkw, hc⟩
    have hany : networkKeywords.any (fun kw => containsList (toLowerList out) kw) = true :=
      List.any_eq_true.mpr ⟨kw, hkw, hc⟩
    simp [analyzeFailure, hany]
  · intro hnet ⟨kw, hkw, hc⟩
    have h1 : networkKeywords.any (fun kw => containsList (toLowerList out) kw) = false :=
      List.any_eq_false.mpr (by intro kw hkw; simp [hnet kw hkw])
    have h2 : notFoundKeywords.any (fun kw => containsList (toLowerList out) kw) = true :=
      List.any_eq_true.mpr ⟨kw, hkw, hc⟩
    simp [analyzeFailure, h1, h2]
  · intro hnet hnf hne
    have h1 : networkKeywords.any (fun kw => containsList (toLowerList out) kw) = false :=
      List.any_eq_false.mpr (by intro kw hkw; simp [hnet kw hkw])
    have h2 : notFoundKeywords.any (fun kw => containsList (toLowerList out) kw) = false :=
      List.any_eq_false.mpr (by intro kw hkw; simp [hnf kw hkw])
    simp [analyzeFailure, h1, h2, hne]
  · intro he
    subst he
    rfl

/-- C3 witness: error text holding both a network keyword ("proxy") and a
not-found keyword ("not found") classifies as NetworkError, and empty text
gives the generic unknown message. -/
theorem c3_classifier_order_witness :
    analyzeFailure (strT "Proxy error: video not found") none =
      (FailureReason.NetworkError,
        strT "Network error: " ++ goTrimSpace (strT "Proxy error: video not found")) ∧
    analyzeFailure [] none = (FailureReason.UnknownError, strT "Unknown error occurred") :=
  ⟨(c3_classifier_order (strT "Proxy error: video not found") none).1
      ⟨strT "proxy", by decide, by decide⟩,
   (c3_classifier_order [] none).2.2.2 rfl⟩

/-- C7: parsed tracks have pairwise distinct raw lines kept in first-seen
order (the raw lines are exactly the first-occurrence deduplication of the
trimmed non-blank separator-containing lines), no track comes from a line
without the " - " separator, and the four-line example parses to exactly the
two expected tracks. -/
theorem c7_playlist_parse (ls : List (List Char)) :
    ((readPlaylistLines ls).map Track.Raw).Nodup ∧
    (readPlaylistLines ls).map Track.Raw =
      specFirstSeen ((ls.map goTrimSpace).filter goodLine) [] ∧
    (∀ t, t ∈ readPlaylistLines ls → containsList t.Raw sepList = true) ∧
    readPlaylistLines [strT "A - B", strT "A - B", strT "C - D - E", strT ""] =
      [{ Artist := strT "A", Title := strT "B", Raw := strT "A - B" },
       { Artist := strT "C", Title := strT "D - E", Raw := strT "C - D - E" }] := by
  have hmap : (readPlaylistLines ls).map Track.Raw =
      specFirstSeen ((ls.map goTrimSpace).filter goodLine) [] :=
    readPlaylistAux_map_raw ls [] [] (fun _ _ => Iff.rfl)
  refine ⟨?_, hmap, ?_, by decide⟩
  · rw [hmap]
    exact specFirstSeen_nodup _ _
  · intro t ht
    exact contains_of_splitOnSepAux t.Raw [] (mem_readPlaylistAux ls [] t ht).2

/-- C7 witness: the single-line playlist "A - B" yields a track whose raw
line contains the separator. -/
theorem c7_playlist_parse_witness :
    containsList (strT "A - B") sepList = true :=
  (c7_playlist_parse [strT "A - B"]).2.2.1 (mkTrack (strT "A - B")) (by decide)

/-- C10: lines are trimmed before duplicate detection — two lines differing
only in surrounding whitespace parse identically to the first alone — and
every parsed track's raw identity is the trimmed form of some input line. -/
theorem c10_trim_dedup (l1 l2 : List Char) (rest : List (List Char))
    (h : goTrimSpace l1 = goTrimSpace l2) :
    readPlaylistLines (l1 :: l2 :: rest) = readPlaylistLines (l1 :: rest) ∧
    (∀ t, t ∈ readPlaylistLines (l1 :: l2 :: rest) →
      ∃ l, l ∈ l1 :: l2 :: rest ∧ t.Raw = goTrimSpace l) := by
  constructor
  · exact readPlaylistAux_trim_dup l1 l2 rest [] h
  · intro t ht
    exact (mem_readPlaylistAux _ [] t ht).1

/-- C10 witness: "  A - B  " after "A - B" is recognized as a duplicate. -/
theorem c10_trim_dedup_witness :
    readPlaylistLines [strT "A - B", strT "  A - B  "] = readPlaylistLines [strT "A - B"] :=
  (c10_trim_dedup (strT "A - B") (strT "  A - B  ") [] (by decide)).1

/-! Helper lemmas about the retry loop. -/

lemma retryAux_attempts_le :
    ∀ (k : Nat) (f : Nat → DownloadResult) (a : Nat), (retryAux f a k).attempts ≤ k + 1 := by
  intro k
  induction k with
  | zero =>
    intro f a
    simp [retryAux]
  | succ k ih =>
    intro f a
    rw [retryAux]
    by_cases h : (f a).Success = true
    · simp [h]
    · rw [Bool.not_eq_true] at h
      simp only [h, Bool.false_eq_true, if_false]
      have := ih f (a + 1)
      omega

lemma retryAux_all_fail :
    ∀ (k : Nat) (f : Nat → DownloadResult) (a : Nat),
      (∀ i, a ≤ i → i ≤ a + k → (f i).Success = false) →
      retryAux f a k =
        { result := f (a + k), attempts := k + 1, sleeps := List.range' (a + 1) k } := by
  intro k
  induction k with
  | zero =>
    intro f a _
    simp [retryAux, List.range']
  | succ k ih =>
    intro f a h
    have hfa : (f a).Success = false := h a le_rfl (Nat.le_add_right a (k + 1))
    rw [retryAux]
    simp only [hfa, Bool.false_eq_true, if_false]
    rw [ih f (a + 1) (fun i h1 h2 => h i (by omega) (by omega))]
    have he : a + 1 + k = a + (k + 1) := by omega
    rw [he]
    rfl

lemma retryAux_first_success :
    ∀ (k : Nat) (f : Nat → DownloadResult) (a i : Nat),
      a ≤ i → i ≤ a + k → (f i).Success = true →
      (∀ j, a ≤ j → j < i → (f j).Success = false) →
      retryAux f a k =
        { result := f i, attempts := i - a + 1, sleeps := List.range' (a + 1) (i - a) } := by
  intro k
  induction k with
  | zero =>
    intro f a i h1 h2 _ _
    have hia : i = a := by omega
    subst hia
    simp [retryAux, List.range']
  | succ k ih =>
    intro f a i h1 h2 hs hf
    by_cases hia : i = a
    · subst hia
      rw [retryAux]
      simp [hs, List.range']
    · have hlt : a < i := lt_of_le_of_ne h1 (Ne.symm hia)
      have hfa : (f a).Success = false := hf a le_rfl hlt
      rw [retryAux]
      simp only [hfa, Bool.false_eq_true, if_false]
      rw [ih f (a + 1) i (by omega) (by omega) hs (fun j hj1 hj2 => hf j (by omega) hj2)]
      have h3 : i - (a + 1) + 1 + 1 = i - a + 1 := by omega
      have h4 : i - a = i - (a + 1) + 1 := by omega
      rw [RetryTrace.mk.injEq]
      refine ⟨rfl, h3, ?_⟩
      rw [h4]
      rfl

/-- C4: the retry controller makes at most retryCount+1 attempts (the
default from NewDownloader being retryCount = 2, hence at most 3), stops at
the first successful attempt, sleeps attempt+1 seconds after each failed
non-final attempt (linear backoff 1, 2, ...), and hands back the last
attempt's result — the final attempt's result when every attempt fails. -/
theorem c4_retry_policy (w retryCount : Nat) (f : Nat → DownloadResult) :
    (NewDownloader w).retryCount = 2 ∧
    (runRetries retryCount f).attempts ≤ retryCount + 1 ∧
    (∀ i, i ≤ retryCount → (f i).Success = true →
      (∀ j, j < i → (f j).Success = false) →
      runRetries retryCount f =
        { result := f i, attempts := i + 1, sleeps := List.range' 1 i }) ∧
    ((∀ i, i ≤ retryCount → (f i).Success = false) →
      runRetries retryCount f =
        { result := f retryCount, attempts := retryCount + 1,
          sleeps := List.range' 1 retryCount }) := by
  refine ⟨rfl, retryAux_attempts_le retryCount f 0, ?_, ?_⟩
  · intro i hi hs hf
    have h := retryAux_first_success retryCount f 0 i (Nat.zero_le i) (by omega) hs
      (fun j _ hj => hf j hj)
    simpa using h
  · intro hall
    have h := retryAux_all_fail retryCount f 0 (fun i _ h2 => hall i (by omega))
    simpa using h

/-- C4 witness: with the default retryCount 2 and every attempt failing, the
loop makes 3 attempts, sleeps 1 then 2 seconds, and returns the final
attempt's result. -/
theorem c4_retry_policy_witness :
    runRetries 2 (fun _ => failRes) =
      { result := failRes, attempts := 3, sleeps := [1, 2] } :=
  (c4_retry_policy 4 2 (fun _ => failRes)).2.2.2 (fun _ _ => rfl)

/-- C5: when skip-existing is enabled and a file named with the track's
sanitized base name plus any recognized extension already exists, the
attempt returns a skipped-success outcome and never invokes the external
subprocess. -/
theorem c5_skip_existing (d : Downloader) (env : AttemptEnv) (t : Track) (dir : List Char)
    (hskip : d.skipExists = true)
    (hex : ∃ ext, ext ∈ extensions ∧ env.fs (joinPath dir (safeBase t ++ ext)) = true) :
    (downloadTrack d env t dir).result =
      { Success := true, Skipped := true, Reason := FailureReason.NetworkError,
        Message := strT "File already exists" } ∧
    (downloadTrack d env t dir).invoked = false := by
  obtain ⟨ext, hmem, hfs⟩ := hex
  have hany : extensions.any (fun ext => env.fs (joinPath dir (safeBase t ++ ext))) = true :=
    List.any_eq_true.mpr ⟨ext, hmem, hfs⟩
  refine ⟨?_, ?_⟩ <;> simp [downloadTrack, hskip, hany]

/-- C5 witness: with the default configuration and "music/A - B.mp3" on
disk, track "A - B" is skipped without invoking the subprocess. -/
theorem c5_skip_existing_witness :
    (downloadTrack (NewDownloader 4) envSkip t0 (strT "music")).result =
      { Success := true, Skipped := true, Reason := FailureReason.NetworkError,
        Message := strT "File already exists" } ∧
    (downloadTrack (NewDownloader 4) envSkip t0 (strT "music")).invoked = false :=
  c5_skip_existing (NewDownloader 4) envSkip t0 (strT "music") rfl
    ⟨strT ".mp3", by decide, by decide⟩

/-! Helper lemmas about temp-file names. -/

lemma append_tmp_ne (x : List Char) : x ++ tmpSuffix ≠ x := by
  intro h
  have hlen := congrArg List.length h
  rw [List.length_append] at hlen
  have h4 : tmpSuffix.length = 4 := rfl
  omega

lemma ext_tmp_ne_ext {a b : List Char} (ha : a ∈ extensions) (hb : b ∈ extensions) :
    a ++ tmpSuffix ≠ b := by
  fin_cases ha <;> fin_cases hb <;> decide

lemma joinPath_inj {dir x y : List Char} (h : joinPath dir x = joinPath dir y) : x = y := by
  rw [joinPath, joinPath] at h
  have h2 := List.append_cancel_left h
  exact (List.cons.injEq _ _ _ _).mp h2 |>.2

lemma fsSet_eq (fs : List Char → Bool) (p : List Char) (b : Bool) (q : List Char) :
    fsSet fs p b q = if q = p then b else fs q := rfl

/-- C6 (amended): after the subprocess, the first extension (in the fixed
order .mp3, .webm, .m4a, .ogg, .opus) whose temp-suffixed file exists is
renamed to the final name and the attempt reports success; if that rename
fails the temp file is deleted and the attempt reports an UnknownError
failure; and a successful attempt leaves no temp-suffixed file for the
track's base name provided at most one extension's temp file existed. -/
theorem c6_temp_rename_amended (d : Downloader) (env : AttemptEnv) (t : Track)
    (dir ext : List Char)
    (hnoskip : (d.skipExists &&
      extensions.any (fun e => env.fs (joinPath dir (safeBase t ++ e)))) = false)
    (hp1 : env.stdoutPipeErr = none) (hp2 : env.stderrPipeErr = none)
    (hp3 : env.startErr = none)
    (hfind : extensions.find?
      (fun e => env.fsAfter (joinPath dir (safeBase t ++ e ++ tmpSuffix))) = some ext) :
    (env.renameErr (joinPath dir (safeBase t ++ ext ++ tmpSuffix))
        (joinPath dir (safeBase t ++ ext)) = none →
      (downloadTrack d env t dir).result.Success = true ∧
      (downloadTrack d env t dir).fsFinal (joinPath dir (safeBase t ++ ext ++ tmpSuffix)) = false ∧
      (downloadTrack d env t dir).fsFinal (joinPath dir (safeBase t ++ ext)) = true ∧
      ((∀ e2, e2 ∈ extensions → e2 ≠ ext →
          env.fsAfter (joinPath dir (safeBase t ++ e2 ++ tmpSuffix)) = false) →
        ∀ e2, e2 ∈ extensions →
          (downloadTrack d env t dir).fsFinal (joinPath dir (safeBase t ++ e2 ++ tmpSuffix)) = false)) ∧
    (∀ msg, env.renameErr (joinPath dir (safeBase t ++ ext ++ tmpSuffix))
        (joinPath dir (safeBase t ++ ext)) = some msg →
      (downloadTrack d env t dir).result.Success = false ∧
      (downloadTrack d env t dir).result.Reason = FailureReason.UnknownError ∧
      (downloadTrack d env t dir).fsFinal (joinPath dir (safeBase t ++ ext ++ tmpSuffix)) = false) := by
  have hext : ext ∈ extensions := List.mem_of_find?_eq_some hfind
  have htne : joinPath dir (safeBase t ++ ext ++ tmpSuffix) ≠ joinPath dir (safeBase t ++ ext) := by
    intro he
    have := joinPath_inj he
    rw [List.append_assoc] at this
    have h2 := List.append_cancel_left this
    exact ext_tmp_ne_ext hext hext h2
  have hfind2 : List.find?
      (fun e => env.fsAfter (joinPath dir (safeBase t ++ (e ++ tmpSuffix)))) extensions =
      some ext := by
    simpa [List.append_assoc] using hfind
  constructor
  · intro hren
    have hren2 : env.renameErr (joinPath dir (safeBase t ++ (ext ++ tmpSuffix)))
        (joinPath dir (safeBase t ++ ext)) = none := by
      rw [← List.append_assoc]
      exact hren
    have hres : downloadTrack d env t dir =
        { result := { Success := true, Skipped := false, Reason := FailureReason.NetworkError,
                      Message := strT "Downloaded successfully" }
          invoked := true
          fsFinal := fsSet (fsSet env.fsAfter (joinPath dir (safeBase t ++ ext ++ tmpSuffix)) false)
            (joinPath dir (safeBase t ++ ext)) true } := by
      simp [downloadTrack, hnoskip, hp1, hp2, hp3, hfind2, hren2, List.append_assoc]
    rw [hres]
    dsimp only
    refine ⟨rfl, ?_, ?_, ?_⟩
    · rw [fsSet_eq, if_neg htne, fsSet_eq, if_pos rfl]
    · rw [fsSet_eq, if_pos rfl]
    · intro hothers e2 he2
      by_cases h2 : e2 = ext
      · subst h2
        rw [fsSet_eq, if_neg htne, fsSet_eq, if_pos rfl]
      · have hne1 : joinPath dir (safeBase t ++ e2 ++ tmpSuffix) ≠
            joinPath dir (safeBase t ++ ext) := by
          intro he
          have h3 := joinPath_inj he
          rw [List.append_assoc] at h3
          exact ext_tmp_ne_ext he2 hext (List.append_cancel_left h3)
        have hne2 : joinPath dir (safeBase t ++ e2 ++ tmpSuffix) ≠
            joinPath dir (safeBase t ++ ext ++ tmpSuffix) := by
          intro he
          have h3 := joinPath_inj he
          rw [List.append_assoc, List.append_assoc] at h3
          exact h2 (List.append_cancel_right (List.append_cancel_left h3))
        rw [fsSet_eq, if_neg hne1, fsSet_eq, if_neg hne2]
        exact hothers e2 he2 h2
  · intro msg hren
    have hren2 : env.renameErr (joinPath dir (safeBase t ++ (ext ++ tmpSuffix)))
        (joinPath dir (safeBase t ++ ext)) = some msg := by
      rw [← List.append_assoc]
      exact hren
    have hres : downloadTrack d env t dir =
        { result := { Success := false, Skipped := false, Reason := FailureReason.UnknownError,
                      Message := strT "Failed to rename temp file: " ++ msg }
          invoked := true
          fsFinal := fsSet env.fsAfter (joinPath dir (safeBase t ++ ext ++ tmpSuffix)) false } := by
      simp [downloadTrack, hnoskip, hp1, hp2, hp3, hfind2, hren2, List.append_assoc]
    rw [hres]
    exact ⟨rfl, rfl, by dsimp only; rw [fsSet_eq, if_pos rfl]⟩

/-- C6 counterexample: with temp files for both .mp3 and .webm present
after the subprocess, the attempt succeeds (renaming the .mp3 temp) yet a
file with the transient temp suffix — music/A - B.webm.tmp — remains in the
output directory, contradicting "a successful attempt leaves no file with
the transient temp suffix". -/
theorem c6_counterexample :
    (downloadTrack (NewDownloader 4) envTwoTmp t0 (strT "music")).result.Success = true ∧
    (downloadTrack (NewDownloader 4) envTwoTmp t0 (strT "music")).fsFinal
      (strT "music/A - B.webm.tmp") = true := by
  refine ⟨?_, ?_⟩ <;> decide

/-- C6 witness: a concrete successful rename with a single temp file leaves
neither temp nor any other temp variant behind. -/
theorem c6_temp_rename_amended_witness :
    (downloadTrack (NewDownloader 4)
      { fs := fun _ => false
        stdoutPipeErr := none, stderrPipeErr := none, startErr := none
        fsAfter := fun p => p == strT "music/A - B.mp3.tmp"
        renameErr := fun _ _ => none
        stderrOutput := [], cmdErr := none } t0 (strT "music")).result.Success = true ∧
    (downloadTrack (NewDownloader 4)
      { fs := fun _ => false
        stdoutPipeErr := none, stderrPipeErr := none, startErr := none
        fsAfter := fun p => p == strT "music/A - B.mp3.tmp"
        renameErr := fun _ _ => none
        stderrOutput := [], cmdErr := none } t0 (strT "music")).fsFinal
      (strT "music/A - B.mp3.tmp") = false := by
  have h := c6_temp_rename_amended (NewDownloader 4)
    { fs := fun _ => false
      stdoutPipeErr := none, stderrPipeErr := none, startErr := none
      fsAfter := fun p => p == strT "music/A - B.mp3.tmp"
      renameErr := fun _ _ => none
      stderrOutput := [], cmdErr := none } t0 (strT "music") (strT ".mp3")
    (by decide) rfl rfl rfl (by decide)
  obtain ⟨hgood, _⟩ := h
  obtain ⟨hsucc, htmp, _, _⟩ := hgood rfl
  exact ⟨hsucc, htmp⟩

/-! Helper lemmas about the worker-pool transition system. -/

lemma outcomeCount_append (o : Outcome) (dn : List (Track × Outcome)) (t : Track)
    (o2 : Outcome) :
    outcomeCount o (dn ++ [(t, o2)]) =
      outcomeCount o dn + if o2 = o then 1 else 0 := by
  rw [outcomeCount, outcomeCount, List.filter_append, List.length_append]
  congr 1
  by_cases h : o2 = o
  · subst h
    simp [List.filter_cons]
  · simp [List.filter_cons, h]

lemma outcomeCount_total (dn : List (Track × Outcome)) :
    outcomeCount Outcome.downloadedOk dn + outcomeCount Outcome.skippedOk dn +
      outcomeCount Outcome.failedOut dn = dn.length := by
  induction dn with
  | nil => rfl
  | cons p rest ih =>
    obtain ⟨t, o⟩ := p
    cases o <;> simp [outcomeCount, List.filter_cons] at ih ⊢ <;> omega

lemma isFailedPair_eq (p : Track × Outcome) :
    isFailedPair p = decide (p.2 = Outcome.failedOut) := by
  obtain ⟨t, o⟩ := p
  cases o <;> rfl

lemma runInv_init (ts : List Track) : RunInv ts (initState ts) := by
  refine ⟨rfl, rfl, rfl, rfl, ?_, ?_, rfl⟩
  · show ts.length + 0 = ts.length
    omega
  · show (ts ++ [] ++ []).Perm ts
    rw [List.append_nil, List.append_nil]

lemma runInv_step {W : Nat} {ts : List Track} {s1 s2 : RunState}
    (hstep : Step W s1 s2) (hinv : RunInv ts s1) : RunInv ts s2 := by
  obtain ⟨h1, h2, h3, h4, h5, h6, h7⟩ := hinv
  cases hstep with
  | dequeue t p hp hW =>
    refine ⟨h1, h2, h3, ?_, ?_, ?_, h7⟩
    · show s1.dequeued + 1 = (s1.inFlight ++ [t]).length + s1.done.length
      rw [List.length_append]
      simp only [List.length_cons, List.length_nil]
      omega
    · show p.length + (s1.dequeued + 1) = ts.length
      have hl : s1.pending.length = p.length + 1 := by rw [hp]; rfl
      omega
    · show (p ++ (s1.inFlight ++ [t]) ++ s1.done.map Prod.fst).Perm ts
      rw [hp] at h6
      refine List.Perm.trans ?_ h6
      have e1 : p ++ (s1.inFlight ++ [t]) ++ s1.done.map Prod.fst
          = (p ++ s1.inFlight) ++ (t :: s1.done.map Prod.fst) := by
        simp [List.append_assoc]
      have e2 : (t :: p) ++ s1.inFlight ++ s1.done.map Prod.fst
          = t :: ((p ++ s1.inFlight) ++ s1.done.map Prod.fst) := by
        simp [List.append_assoc]
      rw [e1, e2]
      exact List.perm_middle
  | finish l1 l2 t o hfl =>
    have hflen := congrArg List.length hfl
    rw [List.length_append, List.length_cons] at hflen
    have hperm : (s1.pending ++ (l1 ++ l2) ++ ((s1.done.map Prod.fst) ++ [t])).Perm ts := by
      rw [hfl] at h6
      refine List.Perm.trans ?_ h6
      have e3 : s1.pending ++ (l1 ++ l2) ++ (s1.done.map Prod.fst ++ [t])
          = ((s1.pending ++ l1) ++ (l2 ++ s1.done.map Prod.fst)) ++ [t] := by
        simp [List.append_assoc]
      have e4 : s1.pending ++ (l1 ++ t :: l2) ++ s1.done.map Prod.fst
          = (s1.pending ++ l1) ++ (t :: (l2 ++ s1.done.map Prod.fst)) := by
        simp [List.append_assoc]
      rw [e3, e4]
      exact (List.perm_append_singleton t _).trans List.perm_middle.symm
    cases o with
    | downloadedOk =>
      refine ⟨?_, ?_, ?_, ?_, h5, ?_, ?_⟩
      · show s1.downloaded + 1 =
          outcomeCount Outcome.downloadedOk (s1.done ++ [(t, Outcome.downloadedOk)])
        rw [outcomeCount_append]
        simp [h1]
      · show s1.skipped =
          outcomeCount Outcome.skippedOk (s1.done ++ [(t, Outcome.downloadedOk)])
        rw [outcomeCount_append]
        simp [h2]
      · show s1.failed =
          outcomeCount Outcome.failedOut (s1.done ++ [(t, Outcome.downloadedOk)])
        rw [outcomeCount_append]
        simp [h3]
      · show s1.dequeued =
          (l1 ++ l2).length + (s1.done ++ [(t, Outcome.downloadedOk)]).length
        rw [List.length_append, List.length_append] at *
        simp only [List.length_cons, List.length_nil] at *
        omega
      · show (s1.pending ++ (l1 ++ l2) ++
            ((s1.done ++ [(t, Outcome.downloadedOk)]).map Prod.fst)).Perm ts
        rw [List.map_append]
        exact hperm
      · show s1.failLog =
          ((s1.done ++ [(t, Outcome.downloadedOk)]).filter isFailedPair).map
            (fun p => p.1.Raw)
        rw [List.filter_append, List.map_append, ← h7]
        simp [List.filter_cons, isFailedPair]
    | skippedOk =>
      refine ⟨?_, ?_, ?_, ?_, h5, ?_, ?_⟩
      · show s1.downloaded =
          outcomeCount Outcome.downloadedOk (s1.done ++ [(t, Outcome.skippedOk)])
        rw [outcomeCount_append]
        simp [h1]
      · show s1.skipped + 1 =
          outcomeCount Outcome.skippedOk (s1.done ++ [(t, Outcome.skippedOk)])
        rw [outcomeCount_append]
        simp [h2]
      · show s1.failed =
          outcomeCount Outcome.failedOut (s1.done ++ [(t, Outcome.skippedOk)])
        rw [outcomeCount_append]
        simp [h3]
      · show s1.dequeued =
          (l1 ++ l2).length + (s1.done ++ [(t, Outcome.skippedOk)]).length
        rw [List.length_append, List.length_append] at *
        simp only [List.length_cons, List.length_nil] at *
        omega
      · show (s1.pending ++ (l1 ++ l2) ++
            ((s1.done ++ [(t, Outcome.skippedOk)]).map Prod.fst)).Perm ts
        rw [List.map_append]
        exact hperm
      · show s1.failLog =
          ((s1.done ++ [(t, Outcome.skippedOk)]).filter isFailedPair).map
            (fun p => p.1.Raw)
        rw [List.filter_append, List.map_append, ← h7]
        simp [List.filter_cons, isFailedPair]
    | failedOut =>
      refine ⟨?_, ?_, ?_, ?_, h5, ?_, ?_⟩
      · show s1.downloaded =
          outcomeCount Outcome.downloadedOk (s1.done ++ [(t, Outcome.failedOut)])
        rw [outcomeCount_append]
        simp [h1]
      · show s1.skipped =
          outcomeCount Outcome.skippedOk (s1.done ++ [(t, Outcome.failedOut)])
        rw [outcomeCount_append]
        simp [h2]
      · show s1.failed + 1 =
          outcomeCount Outcome.failedOut (s1.done ++ [(t, Outcome.failedOut)])
        rw [outcomeCount_append]
        simp [h3]
      · show s1.dequeued =
          (l1 ++ l2).length + (s1.done ++ [(t, Outcome.failedOut)]).length
        rw [List.length_append, List.length_append] at *
        simp only [List.length_cons, List.length_nil] at *
        omega
      · show (s1.pending ++ (l1 ++ l2) ++
            ((s1.done ++ [(t, Outcome.failedOut)]).map Prod.fst)).Perm ts
        rw [List.map_append]
        exact hperm
      · show s1.failLog ++ [t.Raw] =
          ((s1.done ++ [(t, Outcome.failedOut)]).filter isFailedPair).map
            (fun p => p.1.Raw)
        rw [List.filter_append, List.map_append, ← h7]
        simp [List.filter_cons, isFailedPair]

lemma runInv_reach {W : Nat} {ts : List Track} {s1 s2 : RunState}
    (h : Reach W s1 s2) (hinv : RunInv ts s1) : RunInv ts s2 := by
  induction h with
  | refl => exact hinv
  | tail t u hr hs ih => exact runInv_step hs ih

/-! Helper lemmas about the failure stream writer. -/

lemma streamSaveOps_write_flush :
    ∀ (u : List Track) (i : Nat) (l : List Char),
      (streamSaveOps u)[i]? = some (FileOp.write l) →
      (streamSaveOps u)[i + 1]? = some FileOp.flush := by
  intro u
  induction u with
  | nil =>
    intro i l h
    simp [streamSaveOps] at h
  | cons t rest ih =>
    intro i l h
    match i with
    | 0 => simp [streamSaveOps]
    | 1 =>
      rw [streamSaveOps] at h
      simp at h
    | Nat.succ (Nat.succ j) =>
      rw [streamSaveOps] at h ⊢
      simp only [List.getElem?_cons_succ] at h ⊢
      exact ih j l h

lemma runOps_stream_durable :
    ∀ (u : List Track) (stable : List (List Char)) (n : Nat),
      ∃ k, runOps ((streamSaveOps u).take n) [] stable =
        stable ++ (u.take k).map Track.Raw := by
  intro u
  induction u with
  | nil =>
    intro stable n
    exact ⟨0, by simp [streamSaveOps, runOps]⟩
  | cons t rest ih =>
    intro stable n
    match n with
    | 0 => exact ⟨0, by simp [runOps]⟩
    | 1 =>
      refine ⟨0, ?_⟩
      rw [streamSaveOps]
      simp [runOps]
    | Nat.succ (Nat.succ m) =>
      obtain ⟨k, hk⟩ := ih (stable ++ [t.Raw]) m
      refine ⟨k + 1, ?_⟩
      rw [streamSaveOps]
      rw [List.take_succ_cons, List.take_succ_cons]
      rw [runOps, runOps]
      simp only [List.nil_append] at hk ⊢
      rw [hk, List.take_succ_cons, List.map_cons]
      simp [List.append_assoc]

lemma count_eq_one_of_mem_nodup {a : List Char} {l : List (List Char)}
    (hnd : l.Nodup) (hm : a ∈ l) : l.count a = 1 := by
  induction l with
  | nil => simp at hm
  | cons b rest ih =>
    rw [List.count_cons]
    rcases List.mem_cons.mp hm with he | hm2
    · subst he
      have hnotin : a ∉ rest := (List.nodup_cons.mp hnd).1
      rw [List.count_eq_zero.mpr hnotin]
      simp
    · have hne : a ≠ b := by
        intro he
        subst he
        exact (List.nodup_cons.mp hnd).1 hm2
      rw [ih (List.nodup_cons.mp hnd).2 hm2]
      simp [Ne.symm hne]

/-- C1 counterexample: with one worker and the one-track playlist "A - B",
the state right after the job is dequeued — but before its outcome is
recorded — is reachable, and there downloaded + skipped + failed = 0 while
one job has been dequeued, refuting "at every point during a run the
counters satisfy downloaded + skipped + failed == number of jobs dequeued
so far". -/
theorem c1_counterexample :
    Reach 1 (initState (readPlaylistLines lines1)) runMid ∧
    ¬(runMid.downloaded + runMid.skipped + runMid.failed = runMid.dequeued) := by
  constructor
  · exact Reach.tail _ _ _ (Reach.refl _)
      (Step.dequeue _ t0 [] (by decide) (by decide))
  · decide

/-- C1 (amended): at every reachable point of a run, downloaded + skipped +
failed equals the number of jobs recorded so far, that is, the number of
jobs dequeued so far minus those still in flight; and when Download returns
(queue drained, no job in flight) the final sum equals the number of unique
parsed tracks — for any worker count. -/
theorem c1_counters_amended (W : Nat) (lines : List (List Char)) (s : RunState)
    (h : Reach W (initState (readPlaylistLines lines)) s) :
    s.downloaded + s.skipped + s.failed + s.inFlight.length = s.dequeued ∧
    (s.pending = [] → s.inFlight = [] →
      s.downloaded + s.skipped + s.failed = (readPlaylistLines lines).length) := by
  have hinv := runInv_reach h (runInv_init (readPlaylistLines lines))
  obtain ⟨h1, h2, h3, h4, h5, h6, h7⟩ := hinv
  have htot := outcomeCount_total s.done
  constructor
  · omega
  · intro hp hf
    rw [hp] at h5
    rw [hf] at h4
    simp only [List.length_nil] at h4 h5
    omega

/-- C1 witness: running the one-track playlist to completion with one
worker gives final counters summing to the number of parsed tracks. -/
theorem c1_counters_amended_witness :
    runFin.downloaded + runFin.skipped + runFin.failed =
      (readPlaylistLines lines1).length :=
  (c1_counters_amended 1 lines1 runFin
    (Reach.tail _ _ _
      (Reach.tail _ _ _ (Reach.refl _) (Step.dequeue _ t0 [] (by decide) (by decide)))
      (Step.finish _ [] [] t0 Outcome.downloadedOk (by decide)))).2 rfl rfl

/-- C2: in every reachable state the failed counter equals the number of
lines written to the failure file, the file holds exactly the raw lines of
the recorded failures in completion order (so no terminal failure is
dropped and each failed track appears exactly once, verbatim, given the
parser's duplicate-free tracks); and the stream writer's operation sequence
flushes immediately after every write, so a kill at any point leaves the
raw lines of a prefix of the received failures on stable storage. -/
theorem c2_failure_stream (W : Nat) (ts : List Track) (s : RunState)
    (hnd : (ts.map Track.Raw).Nodup) (h : Reach W (initState ts) s) :
    s.failed = s.failLog.length ∧
    s.failLog = (s.done.filter isFailedPair).map (fun p => p.1.Raw) ∧
    s.failLog.Nodup ∧
    (∀ t, (t, Outcome.failedOut) ∈ s.done → s.failLog.count t.Raw = 1) ∧
    (∀ (u : List Track) (i : Nat) (l : List Char),
      (streamSaveOps u)[i]? = some (FileOp.write l) →
      (streamSaveOps u)[i + 1]? = some FileOp.flush) ∧
    (∀ (u : List Track) (n : Nat),
      ∃ k, runOps ((streamSaveOps u).take n) [] [] = (u.take k).map Track.Raw) := by
  have hinv := runInv_reach h (runInv_init ts)
  obtain ⟨h1, h2, h3, h4, h5, h6, h7⟩ := hinv
  have hndDone : (s.done.map (fun p => p.1.Raw)).Nodup := by
    have hperm := h6.map Track.Raw
    have hnd2 := hperm.nodup_iff.mpr hnd
    rw [List.map_append] at hnd2
    have hnd3 := hnd2.of_append_right
    rw [List.map_map] at hnd3
    exact hnd3
  have hlog_nodup : s.failLog.Nodup := by
    rw [h7]
    exact List.Nodup.sublist ((List.filter_sublist s.done).map (fun p => p.1.Raw)) hndDone
  refine ⟨?_, h7, hlog_nodup, ?_, streamSaveOps_write_flush, ?_⟩
  · rw [h3, h7, List.length_map, outcomeCount]
    congr 1
    exact (List.filter_congr (fun x _ => isFailedPair_eq x)).symm
  · intro t hmem
    have hin : t.Raw ∈ s.failLog := by
      rw [h7]
      exact List.mem_map.mpr ⟨(t, Outcome.failedOut), List.mem_filter.mpr ⟨hmem, rfl⟩, rfl⟩
    exact count_eq_one_of_mem_nodup hlog_nodup hin
  · intro u n
    exact (runOps_stream_durable u [] n).imp (fun k hk => by simpa using hk)

/-- C2 witness: the one-track run in which "A - B" fails ends with one
counted failure, the failure file holding exactly that raw line once. -/
theorem c2_failure_stream_witness :
    runFinFail.failed = runFinFail.failLog.length ∧
    runFinFail.failLog.count t0.Raw = 1 := by
  have h := c2_failure_stream 1 (readPlaylistLines lines1) runFinFail (by decide)
    (Reach.tail _ _ _
      (Reach.tail _ _ _ (Reach.refl _) (Step.dequeue _ t0 [] (by decide) (by decide)))
      (Step.finish _ [] [] t0 Outcome.failedOut (by decide)))
  exact ⟨h.1, h.2.2.2.1 t0 (by decide)⟩

end MusicDL
